import Mathlib

/-!
Verification of the price-resolution engine of `backend/services/pricing.py`
(and the snapshot market-hours policy used by `backend/main.py`).

The Python module is shallowly embedded as pure Lean functions:
* prices and timestamps are rationals (`ℚ`);
* the process-wide mutable cache `_cache` is threaded explicitly as an
  association list from key to `(timestamp, value)`;
* every upstream HTTP/library call is replaced by a lookup in a deterministic
  provider environment `Env` (an `Option` result models a response, with
  `none` standing for any exception the real call would raise: network
  failure, non-2xx status, malformed payload);
* the trace of provider invocations is returned alongside each result so
  that fallback ordering, short-circuiting and deduplication are observable;
* a Python exception escaping a function is modelled as an `Except.error` /
  `none` result, with `PriceError` distinguishing the exception classes the
  claims care about.
-/

namespace Pricing

/-- Mirrors the dataclass `PriceResult(price_krw, source, price_usd=None)`. -/
structure PriceResult where
  price_krw : ℚ
  source : String
  price_usd : Option ℚ := none
deriving DecidableEq, Repr

/-- Exception classes that can escape the embedded functions.
`unsupportedAsset` is `ValueError("Unsupported asset type or symbol")`;
`noData msg` is a `ValueError(msg)` raised by a provider path and re-raised;
`transport` stands for an `httpx` transport/status error (re-raised by the
crypto branch); `bareRaise` is the `RuntimeError` produced by the bare
`raise` statement that sits outside the `except` block in the stock branch
of `get_price_krw`. -/
inductive PriceError where
  | unsupportedAsset
  | noData (msg : String)
  | transport
  | bareRaise
deriving DecidableEq, Repr

/-- One outbound upstream call, as observed on the network boundary. -/
inductive ProviderCall where
  | finnhub (symbol : String)
  | yahoo (symbol : String)
  | yahooBatch (symbols : List String)
  | stooq (symbol : String)
  | fxPrimary
  | fxFallback
  | upbit
  | krx (symbol : String) (day : ℤ)
deriving DecidableEq, Repr

/-- The module-level `_cache` dict: key maps to `(timestamp, value)`.
The most recent write for a key is the first matching entry. -/
abbrev Cache := List (String × ℚ × ℚ)

/-- First-match lookup in the cache (dict read). -/
def cacheLookup : Cache → String → Option (ℚ × ℚ)
  | [], _ => none
  | (k, t, v) :: rest, key => if k = key then some (t, v) else cacheLookup rest key

/-- `_set_cache`: `_cache[key] = (time(), value)`; prepending implements
the dict overwrite for lookup purposes. -/
def _set_cache (cache : Cache) (now : ℚ) (key : String) (value : ℚ) : Cache :=
  (key, now, value) :: cache

/-! Python string primitives, re-implemented by structural recursion on the
character list so that concrete runs reduce inside the kernel (the library
versions are compiled externally and do not). -/

/-- ASCII whitespace, as stripped by Python `str.strip()`. -/
def isSpaceChar (c : Char) : Bool :=
  decide (c.toNat = 32 ∨ c.toNat = 9 ∨ c.toNat = 10 ∨ c.toNat = 13 ∨
    c.toNat = 11 ∨ c.toNat = 12)

/-- An ASCII decimal digit. -/
def isDigitChar (c : Char) : Bool :=
  decide (48 ≤ c.toNat ∧ c.toNat ≤ 57)

/-- Python `str.strip()` (ASCII whitespace). -/
def pyStrip (s : String) : String :=
  ⟨((s.data.dropWhile isSpaceChar).reverse.dropWhile isSpaceChar).reverse⟩

/-- ASCII upper-casing of one character. -/
def charUp (c : Char) : Char :=
  if 97 ≤ c.toNat ∧ c.toNat ≤ 122 then Char.ofNat (c.toNat - 32) else c

/-- ASCII lower-casing of one character. -/
def charDown (c : Char) : Char :=
  if 65 ≤ c.toNat ∧ c.toNat ≤ 90 then Char.ofNat (c.toNat + 32) else c

/-- Python `str.upper()` (ASCII). -/
def pyUpper (s : String) : String := ⟨s.data.map charUp⟩

/-- Python `str.lower()` (ASCII). -/
def pyLower (s : String) : String := ⟨s.data.map charDown⟩

/-- Python `str.split(sep)` for a one-character separator, on char lists. -/
def splitOnChar (sep : Char) : List Char → List (List Char)
  | [] => [[]]
  | c :: rest =>
    let r := splitOnChar sep rest
    if c = sep then [] :: r
    else
      match r with
      | [] => [[c]]
      | g :: gs => (c :: g) :: gs

/-- Python `str.split(sep)` for a one-character separator. -/
def pySplit (s : String) (sep : Char) : List String :=
  (splitOnChar sep s.data).map (fun l => ⟨l⟩)

/-- Python `str.startswith(p)`. -/
def strHasPrefix (s p : String) : Bool :=
  p.data.isPrefixOf s.data

/-- `_CACHE_TTL_MAP`: per-kind TTL in seconds; this revision disables all
caching by setting every TTL to zero. -/
def _CACHE_TTL_MAP : List (String × ℚ) :=
  [("usdkrw", 0), ("stock", 0), ("kr_stock", 0), ("btc", 0)]

/-- `_DEFAULT_CACHE_TTL = 0`. -/
def _DEFAULT_CACHE_TTL : ℚ := 0

/-- Iteration of `_CACHE_TTL_MAP.items()` in `_get_cache_ttl`. -/
def ttlScan : List (String × ℚ) → String → ℚ
  | [], _ => _DEFAULT_CACHE_TTL
  | (p, ttl) :: rest, key =>
    if key = p ∨ strHasPrefix key (p ++ ":") = true then ttl else ttlScan rest key

/-- `_get_cache_ttl(key)`. -/
def _get_cache_ttl (key : String) : ℚ :=
  ttlScan _CACHE_TTL_MAP key

/-- `_get_cached(key, allow_stale=False)`: the cached value if an entry is
present and `allow_stale or (time() - timestamp) < ttl`. -/
def _get_cached (cache : Cache) (now : ℚ) (key : String) (allow_stale : Bool) : Option ℚ :=
  match cacheLookup cache key with
  | none => none
  | some (timestamp, value) =>
    if allow_stale = true ∨ now - timestamp < _get_cache_ttl key then some value else none

/-- Deterministic provider environment standing in for the upstream HTTP
endpoints and the pykrx library.  A `none` response models any exception the
real call would raise (network error, non-2xx status, malformed body). -/
structure Env where
  /-- `settings.finnhub_api_key` is non-empty. -/
  finnhub_api_key : Bool
  /-- Finnhub `quote` response: outer `none` is a transport/status error;
  the inner option is the JSON field `c` (`data.get("c", 0)` defaults a
  missing field to `0`). -/
  finnhubResp : String → Option (Option ℚ)
  /-- Yahoo v8 chart response: outer `none` covers transport errors and an
  empty `chart.result`; the inner option is `meta.regularMarketPrice`. -/
  yahooResp : String → Option (Option ℚ)
  /-- Yahoo v7 batch quote response for a symbols list: `none` is a
  transport/status error; otherwise the quote list as
  `(symbol, regularMarketPrice)` pairs. -/
  yahooBatchResp : List String → Option (List (String × Option ℚ))
  /-- Stooq CSV response body (`none` is a transport/status error). -/
  stooqResp : String → Option String
  /-- `rates.KRW` from open.er-api.com (`none`: transport error or missing
  `rates` field). -/
  fxPrimary : Option ℚ
  /-- `rates.KRW` from frankfurter.app (`none`: transport error or missing
  `rates` field). -/
  fxFallback : Option ℚ
  /-- Upbit `trade_price` for KRW-BTC (`none` is any failure). -/
  upbitResp : Option ℚ
  /-- pykrx OHLCV close for a symbol on a given day; `none` models
  "no rows for that day" (and any pykrx-internal failure). -/
  krx : String → ℤ → Option ℚ
  /-- `date.today()` as a day number. -/
  today : ℤ

/-- `fetch_usd_krw_rate`: fresh cache read, then the primary FX source, then
the fallback; a successful rate is cached under `"usdkrw"`.  A `none` result
models the exception escaping the function. -/
def fetch_usd_krw_rate (env : Env) (now : ℚ) (cache : Cache) :
    Option ℚ × Cache × List ProviderCall :=
  match _get_cached cache now "usdkrw" false with
  | some cached => (some cached, cache, [])
  | none =>
    match env.fxPrimary with
    | some rate => (some rate, _set_cache cache now "usdkrw" rate, [.fxPrimary])
    | none =>
      match env.fxFallback with
      | some rate =>
        (some rate, _set_cache cache now "usdkrw" rate, [.fxPrimary, .fxFallback])
      | none => (none, cache, [.fxPrimary, .fxFallback])

/-- `_fetch_from_finnhub`: fails fast (no network call) when the API key is
not configured; a reported price `c = 0` (or a missing `c` field) is treated
as no-data and raised. -/
def _fetch_from_finnhub (env : Env) (symbol : String) : Option ℚ × List ProviderCall :=
  if env.finnhub_api_key then
    match env.finnhubResp symbol with
    | none => (none, [.finnhub symbol])
    | some body =>
      let price := body.getD 0
      if price = 0 then (none, [.finnhub symbol]) else (some price, [.finnhub symbol])
  else
    (none, [])

/-- `_fetch_from_yahoo`: fails on transport errors, an empty `chart.result`
or a missing `regularMarketPrice`; any present numeric price (zero included)
is returned. -/
def _fetch_from_yahoo (env : Env) (symbol : String) : Option ℚ × List ProviderCall :=
  match env.yahooResp symbol with
  | none => (none, [.yahoo symbol])
  | some body =>
    match body with
    | none => (none, [.yahoo symbol])
    | some price => (some price, [.yahoo symbol])

/-- Digit-string to natural number (value of `cs` read as base-10 digits). -/
def natOfDigits (cs : List Char) : ℕ :=
  cs.foldl (fun acc c => acc * 10 + (c.toNat - 48)) 0

/-- Unsigned part of a Python `float` literal: digits with at most one
decimal point and at least one digit overall. -/
def parseUnsigned (cs : List Char) : Option ℚ :=
  match splitOnChar '.' cs with
  | [intPart] =>
    if intPart ≠ [] ∧ intPart.all isDigitChar then
      some (natOfDigits intPart : ℚ)
    else none
  | [intPart, fracPart] =>
    if intPart ++ fracPart ≠ [] ∧ intPart.all isDigitChar ∧ fracPart.all isDigitChar then
      some ((natOfDigits intPart : ℚ) +
        (natOfDigits fracPart : ℚ) / (10 ^ fracPart.length : ℚ))
    else none
  | _ => none

/-- Python `float(s)` restricted to plain decimal literals: an optional
sign, then digits with at most one decimal point and at least one digit.
(The Stooq close column only ever carries such literals; exotic forms like
exponents would make the real `float` succeed where this returns `none`,
which no claim depends on.) -/
def parseFloat (s : String) : Option ℚ :=
  match s.data with
  | '-' :: rest => (parseUnsigned rest).map (fun q => -q)
  | '+' :: rest => parseUnsigned rest
  | cs => parseUnsigned cs

/-- Python `dict(zip(headers, values))[k]`: for duplicate keys the last
occurrence wins, hence the reversed first-match lookup. -/
def zipDictGet (pairs : List (String × String)) (k : String) : Option String :=
  (pairs.reverse.find? (fun kv => kv.1 = k)).map (fun kv => kv.2)

/-- Body of `_fetch_from_stooq` after the response text arrived: strip,
split into lines, parse the two CSV rows, and read the `close` column.
An empty or `"N/D"` close is no-data; otherwise the value goes through
`float`. -/
def stooqParse (text : String) : Option ℚ :=
  let t := pyStrip text
  let lines := pySplit t '\n'
  if lines.length < 2 then none
  else
    let headers := (pySplit (lines.headD "") ',').map (fun h => pyLower (pyStrip h))
    let values := (pySplit ((lines.get? 1).getD "") ',').map (fun v => pyStrip v)
    if headers.length ≠ values.length then none
    else
      match zipDictGet (headers.zip values) "close" with
      | none => none
      | some closeValue =>
        if closeValue = "" ∨ closeValue = "N/D" then none
        else parseFloat closeValue

/-- `_fetch_from_stooq`: one request to the CSV quote endpoint, then
`stooqParse` on the body. -/
def _fetch_from_stooq (env : Env) (symbol : String) : Option ℚ × List ProviderCall :=
  match env.stooqResp symbol with
  | none => (none, [.stooq symbol])
  | some text => (stooqParse text, [.stooq symbol])

/-- `fetch_stock_usd_price`: Finnhub first (skipped without an API key),
then Yahoo, then Stooq; the first success is cached under
`"stock:" ++ symbol` and tagged with the adapter name; exhaustion raises
`ValueError("All price sources failed ...")`, modelled as `none`. -/
def fetch_stock_usd_price (env : Env) (symbol : String) (now : ℚ) (cache : Cache) :
    Option (ℚ × String) × Cache × List ProviderCall :=
  match (if env.finnhub_api_key then _fetch_from_finnhub env symbol else (none, [])) with
  | (some price, t1) =>
    (some (price, "finnhub"), _set_cache cache now ("stock:" ++ symbol) price, t1)
  | (none, t1) =>
    match _fetch_from_yahoo env symbol with
    | (some price, t2) =>
      (some (price, "yahoo"), _set_cache cache now ("stock:" ++ symbol) price, t1 ++ t2)
    | (none, t2) =>
      match _fetch_from_stooq env symbol with
      | (some price, t3) =>
        (some (price, "stooq"), _set_cache cache now ("stock:" ++ symbol) price,
          t1 ++ t2 ++ t3)
      | (none, t3) => (none, cache, t1 ++ t2 ++ t3)

/-- `fetch_btc_krw_price`: fresh cache read, then the Upbit ticker; a
success is cached under `"btc"`. -/
def fetch_btc_krw_price (env : Env) (now : ℚ) (cache : Cache) :
    Option ℚ × Cache × List ProviderCall :=
  match _get_cached cache now "btc" false with
  | some cached => (some cached, cache, [])
  | none =>
    match env.upbitResp with
    | some price => (some price, _set_cache cache now "btc" price, [.upbit])
    | none => (none, cache, [.upbit])

/-- The `for offset in range(0, 7)` loop of `_fetch_krx_close_price`:
`fuel` counts the remaining offsets and `day` is `today - offset`. -/
def krxScanAux (f : ℤ → Option ℚ) (symbol : String) : ℕ → ℤ → Option ℚ × List ProviderCall
  | 0, _ => (none, [])
  | fuel + 1, day =>
    match f day with
    | some close => (some close, [.krx symbol day])
    | none =>
      let rest := krxScanAux f symbol fuel (day - 1)
      (rest.1, .krx symbol day :: rest.2)

/-- `_fetch_krx_close_price`: scan backward from today over at most 7
calendar days and return the first non-empty day's close; seven empty days
raise `ValueError("No price data for " + symbol)`. -/
def _fetch_krx_close_price (env : Env) (symbol : String) :
    Except PriceError ℚ × List ProviderCall :=
  match krxScanAux (env.krx symbol) symbol 7 env.today with
  | (some close, tr) => (.ok close, tr)
  | (none, tr) => (.error (.noData ("No price data for " ++ symbol)), tr)

/-- `fetch_kr_stock_krw_price`: strip the exchange suffix (`.KS`, `.KQ`),
fresh cache read under the stripped key, then the pykrx scan; a success is
cached under `"kr_stock:" ++ clean_symbol`. -/
def fetch_kr_stock_krw_price (env : Env) (now : ℚ) (cache : Cache) (symbol : String) :
    Except PriceError ℚ × Cache × List ProviderCall :=
  let clean := ((pySplit symbol '.').headD symbol)
  match _get_cached cache now ("kr_stock:" ++ clean) false with
  | some cached => (.ok cached, cache, [])
  | none =>
    match _fetch_krx_close_price env clean with
    | (.ok price, tr) => (.ok price, _set_cache cache now ("kr_stock:" ++ clean) price, tr)
    | (.error e, tr) => (.error e, cache, tr)

/-- `get_price_krw`: dispatch on the asset type.
Foreign equity multiplies the USD price by the FX rate; on any
`httpx.HTTPError`/`ValueError` it tries stale reads of both
`"stock:" ++ symbol` and `"usdkrw"`, and otherwise re-raises via a bare
`raise` placed outside the `except` block (hence `bareRaise`).
Domestic equity returns the pykrx close; on failure it tries a stale read
keyed by the UNSTRIPPED symbol and otherwise re-raises the caught error.
Crypto supports only BTC via Upbit with a stale `"btc"` fallback; the
re-raised Upbit failure is modelled as `transport`.  Anything else raises
`ValueError("Unsupported asset type or symbol")`. -/
def get_price_krw (env : Env) (now : ℚ) (cache : Cache) (symbol asset_type : String) :
    Except PriceError PriceResult × Cache × List ProviderCall :=
  if asset_type = "stock" then
    match fetch_stock_usd_price env symbol now cache with
    | (some (usd_price, price_source), c1, t1) =>
      match fetch_usd_krw_rate env now c1 with
      | (some rate, c2, t2) =>
        (.ok ⟨usd_price * rate, price_source, some usd_price⟩, c2, t1 ++ t2)
      | (none, c2, t2) =>
        match _get_cached c2 now ("stock:" ++ symbol) true,
            _get_cached c2 now "usdkrw" true with
        | some cached, some cached_rate =>
          (.ok ⟨cached * cached_rate, "cache", some cached⟩, c2, t1 ++ t2)
        | _, _ => (.error .bareRaise, c2, t1 ++ t2)
    | (none, c1, t1) =>
      match _get_cached c1 now ("stock:" ++ symbol) true,
          _get_cached c1 now "usdkrw" true with
      | some cached, some cached_rate =>
        (.ok ⟨cached * cached_rate, "cache", some cached⟩, c1, t1)
      | _, _ => (.error .bareRaise, c1, t1)
  else if asset_type = "kr_stock" then
    match fetch_kr_stock_krw_price env now cache symbol with
    | (.ok price, c1, t1) => (.ok ⟨price, "pykrx", none⟩, c1, t1)
    | (.error e, c1, t1) =>
      match _get_cached c1 now ("kr_stock:" ++ symbol) true with
      | some cached => (.ok ⟨cached, "cache", none⟩, c1, t1)
      | none => (.error e, c1, t1)
  else if asset_type = "crypto" ∧ pyUpper symbol = "BTC" then
    match fetch_btc_krw_price env now cache with
    | (some price, c1, t1) => (.ok ⟨price, "upbit", none⟩, c1, t1)
    | (none, c1, t1) =>
      match _get_cached c1 now "btc" true with
      | some cached => (.ok ⟨cached, "cache", none⟩, c1, t1)
      | none => (.error .transport, c1, t1)
  else
    (.error .unsupportedAsset, cache, [])

/-- Result-dict lookup (first match; `dinsert` keeps keys unique). -/
def dlookup {α : Type} : List (String × α) → String → Option α
  | [], _ => none
  | (k, v) :: rest, key => if k = key then some v else dlookup rest key

/-- Python dict assignment `d[k] = v`: replaces any existing binding. -/
def dinsert {α : Type} (d : List (String × α)) (k : String) (v : α) : List (String × α) :=
  d.filter (fun kv => kv.1 ≠ k) ++ [(k, v)]

/-- Python `d1.update(d2)`. -/
def dupdate {α : Type} (d1 d2 : List (String × α)) : List (String × α) :=
  d2.foldl (fun acc kv => dinsert acc kv.1 kv.2) d1

/-- First-occurrence deduplication.  Python computes
`list(set(symbols) - set(done))` whose iteration order is unspecified;
results are order-insensitive, and this model fixes first-occurrence order. -/
def dedupFirst : List String → List String
  | [] => []
  | s :: rest => s :: (dedupFirst rest).filter (fun x => x ≠ s)

/-- The gather-then-collect loop of `_fetch_stocks_from_finnhub_batch`:
every listed symbol is fetched (duplicates included); successes are put in
the result dict tagged `"finnhub"` and cached under `"stock:" ++ symbol`. -/
def finnhubBatchAux (env : Env) (now : ℚ) :
    List String → List (String × ℚ × String) → Cache → List ProviderCall →
    List (String × ℚ × String) × Cache × List ProviderCall
  | [], acc, cache, tr => (acc, cache, tr)
  | s :: rest, acc, cache, tr =>
    match _fetch_from_finnhub env s with
    | (some price, t) =>
      finnhubBatchAux env now rest (dinsert acc s (price, "finnhub"))
        (_set_cache cache now ("stock:" ++ s) price) (tr ++ t)
    | (none, t) => finnhubBatchAux env now rest acc cache (tr ++ t)

/-- `_fetch_stocks_from_finnhub_batch(symbols)`. -/
def _fetch_stocks_from_finnhub_batch (env : Env) (now : ℚ) (cache : Cache)
    (symbols : List String) : List (String × ℚ × String) × Cache × List ProviderCall :=
  finnhubBatchAux env now symbols [] cache []

/-- The quote-processing loop of `_fetch_stocks_from_yahoo_batch`: a quote
with a non-empty symbol and a present `regularMarketPrice` is recorded
tagged `"yahoo"` and cached. -/
def yahooQuotesAux (now : ℚ) :
    List (String × Option ℚ) → List (String × ℚ × String) → Cache →
    List (String × ℚ × String) × Cache
  | [], acc, cache => (acc, cache)
  | (sym, priceOpt) :: rest, acc, cache =>
    match priceOpt with
    | some price =>
      if sym ≠ "" then
        yahooQuotesAux now rest (dinsert acc sym (price, "yahoo"))
          (_set_cache cache now ("stock:" ++ sym) price)
      else yahooQuotesAux now rest acc cache
    | none => yahooQuotesAux now rest acc cache

/-- `_fetch_stocks_from_yahoo_batch(symbols)`: a single request for the
whole list; any exception yields an empty result dict. -/
def _fetch_stocks_from_yahoo_batch (env : Env) (now : ℚ) (cache : Cache)
    (symbols : List String) : List (String × ℚ × String) × Cache × List ProviderCall :=
  match symbols with
  | [] => ([], cache, [])
  | _ :: _ =>
    match env.yahooBatchResp symbols with
    | none => ([], cache, [.yahooBatch symbols])
    | some quotes =>
      let processed := yahooQuotesAux now quotes [] cache
      (processed.1, processed.2, [.yahooBatch symbols])

/-- `fetch_stocks_usd_prices_batch(symbols)`: Finnhub pass (parallel, one
request per listed occurrence) when the key is configured, then one Yahoo
batch request for the set-difference of symbols still missing. -/
def fetch_stocks_usd_prices_batch (env : Env) (now : ℚ) (cache : Cache)
    (symbols : List String) : List (String × ℚ × String) × Cache × List ProviderCall :=
  match symbols with
  | [] => ([], cache, [])
  | _ :: _ =>
    let step1 := if env.finnhub_api_key
      then _fetch_stocks_from_finnhub_batch env now cache symbols
      else ([], cache, [])
    let failed := dedupFirst (symbols.filter (fun s => dlookup step1.1 s = none))
    match failed with
    | [] => step1
    | _ :: _ =>
      let step2 := _fetch_stocks_from_yahoo_batch env now step1.2.1 failed
      (dupdate step1.1 step2.1, step2.2.1, step1.2.2 ++ step2.2.2)

/-- The Stooq-fallback loop of `get_price_krw_batch` over the symbols the
batch APIs missed: a success is cached and recorded tagged `"stooq"`;
a failure leaves the symbol absent. -/
def stooqFallbackAux (env : Env) (now rate : ℚ) :
    List String → List (String × PriceResult) → Cache → List ProviderCall →
    List (String × PriceResult) × Cache × List ProviderCall
  | [], acc, cache, tr => (acc, cache, tr)
  | s :: rest, acc, cache, tr =>
    match _fetch_from_stooq env s with
    | (some price, t) =>
      stooqFallbackAux env now rate rest
        (dinsert acc s ⟨price * rate, "stooq", some price⟩)
        (_set_cache cache now ("stock:" ++ s) price) (tr ++ t)
    | (none, t) => stooqFallbackAux env now rate rest acc cache (tr ++ t)

/-- The `fetch_single` fan-out of `get_price_krw_batch` over the non-stock
assets: each failure is caught and recorded as an absent key. -/
def otherAssetsAux (env : Env) (now : ℚ) :
    List (String × String) → List (String × PriceResult) → Cache → List ProviderCall →
    List (String × PriceResult) × Cache × List ProviderCall
  | [], acc, cache, tr => (acc, cache, tr)
  | (s, ty) :: rest, acc, cache, tr =>
    match get_price_krw env now cache s ty with
    | (.ok r, c2, t2) => otherAssetsAux env now rest (dinsert acc s r) c2 (tr ++ t2)
    | (.error _, c2, t2) => otherAssetsAux env now rest acc c2 (tr ++ t2)

/-- `get_price_krw_batch(assets)`: partition by asset type; for the
foreign-equity partition run the batch chain, then resolve the FX rate
(a failure there ESCAPES the whole function, modelled as a `none` overall
result), convert to KRW, and run the Stooq fallback for symbols the batch
APIs missed; the remaining assets go one by one through `get_price_krw`
with per-symbol failures dropped. -/
def get_price_krw_batch (env : Env) (now : ℚ) (cache : Cache)
    (assets : List (String × String)) :
    Option (List (String × PriceResult)) × Cache × List ProviderCall :=
  let us_stock_symbols := (assets.filter (fun a => a.2 = "stock")).map Prod.fst
  let other_assets := assets.filter (fun a => a.2 ≠ "stock")
  match us_stock_symbols with
  | [] =>
    let others := otherAssetsAux env now other_assets [] cache []
    (some others.1, others.2)
  | _ :: _ =>
    let stage1 := fetch_stocks_usd_prices_batch env now cache us_stock_symbols
    let failed := dedupFirst
      (us_stock_symbols.filter (fun s => dlookup stage1.1 s = none))
    match fetch_usd_krw_rate env now stage1.2.1 with
    | (none, cB, tB) => (none, cB, stage1.2.2 ++ tB)
    | (some rate, cB, tB) =>
      let results0 := stage1.1.map
        (fun e => (e.1, PriceResult.mk (e.2.1 * rate) e.2.2 (some e.2.1)))
      let stage2 := stooqFallbackAux env now rate failed results0 cB []
      let others := otherAssetsAux env now other_assets stage2.1 stage2.2.1 []
      (some others.1, others.2.1, stage1.2.2 ++ tB ++ stage2.2.2 ++ others.2.2)

/-- Modelled from the spec: the market-hours test of `get_snapshot_prices`
(imported by `backend/main.py` but not present in the sources available
here).  A foreign-equity market window of 09:30-16:00 in the market's local
timezone, weekdays only: `weekday` follows `datetime.weekday()` (Monday 0,
Sunday 6) and `seconds_of_day` is the local time of day in seconds. -/
def us_market_is_open (weekday seconds_of_day : ℕ) : Bool :=
  decide (weekday < 5 ∧ 34200 ≤ seconds_of_day ∧ seconds_of_day < 57600)

/-- Which price a foreign-equity snapshot requests. -/
inductive SnapshotMode where
  | live
  | prevClose
deriving DecidableEq, Repr

/-- Modelled from the spec: snapshot semantics selection for foreign
equities inside `get_snapshot_prices` — live while the market is open,
previous close otherwise. -/
def snapshot_mode (weekday seconds_of_day : ℕ) : SnapshotMode :=
  if us_market_is_open weekday seconds_of_day then .live else .prevClose

/-- Modelled from the spec: the human-readable note attached to a
foreign-equity snapshot result. -/
def snapshot_note (weekday seconds_of_day : ℕ) : String :=
  match snapshot_mode weekday seconds_of_day with
  | .live => "live"
  | .prevClose => "last close"

/-! ## Concrete provider environments used by counterexamples and witnesses -/

/-- Finnhub answers 150 USD, Upbit answers 50,000,000 KRW, both FX sources
fail, everything else fails. -/
def envFxDown : Env := {
  finnhub_api_key := true
  finnhubResp := fun _ => some (some 150)
  yahooResp := fun _ => none
  yahooBatchResp := fun _ => none
  stooqResp := fun _ => none
  fxPrimary := none
  fxFallback := none
  upbitResp := some 50000000
  krx := fun _ _ => none
  today := 0 }

/-- Like `envFxDown` but with a working primary FX source (rate 1300). -/
def envFxUp : Env := { envFxDown with fxPrimary := some 1300 }

/-- pykrx has a close of 70,000 for every symbol and day. -/
def envKrxUp : Env := { envFxDown with krx := fun _ _ => some 70000 }

/-- No API key, Yahoo reports a literal zero `regularMarketPrice`, Stooq
reports a zero close. -/
def envZeroQuote : Env := { envFxDown with
  finnhub_api_key := false
  yahooResp := fun _ => some (some 0)
  stooqResp := fun _ =>
    some "Symbol,Date,Time,Open,High,Low,Close,Volume\nAAPL.US,2024-01-05,22:00:07,0,0,0,0,0" }

/-- Every provider fails (and no Finnhub key is configured). -/
def envAllDown : Env := { envFxDown with
  finnhub_api_key := false
  finnhubResp := fun _ => none
  upbitResp := none }

/-- Cache state left behind by an earlier successful domestic-equity fetch
of `005930.KS`: the value sits under the suffix-stripped key. -/
def cacheKrStored : Cache := [("kr_stock:005930", 1, 70000)]

/-- Cache state with a stale foreign-equity price and a stale FX rate. -/
def cacheStale : Cache := [("stock:AAPL", 0, 100), ("usdkrw", 0, 1300)]

/-- Environment for the C7 witness: the reference day and the day before
have no trading record, the third day back closes at 70,000. -/
def envKrxThird : Env :=
  { envFxDown with krx := fun _ d => if d = -2 then some 70000 else none }

/-- Environment where Finnhub errors and Yahoo quotes 123. -/
def envYahooOnly : Env :=
  { envFxDown with finnhubResp := fun _ => none, yahooResp := fun _ => some (some 123) }

/-- A Finnhub environment whose quote endpoint reports the zero sentinel. -/
def envFinnhubZero : Env :=
  { envZeroQuote with finnhub_api_key := true, finnhubResp := fun _ => some (some 0) }

/-- Calls that belong to the foreign-equity/FX side of a batch (everything
except the Upbit and pykrx providers that serve the other partitions). -/
def stockSideCall : ProviderCall → Bool
  | .upbit => false
  | .krx _ _ => false
  | _ => true

/-- Environment where Finnhub has no key, Yahoo fails on both endpoints
coherently, Stooq fails, and FX answers 1300. -/
def envCoherent : Env :=
  { envFxUp with
    finnhub_api_key := false
    yahooBatchResp := fun _ => some [("AAPL", none)] }

/-! ## C5: cache get semantics -/

/-- C5: `_get_cached key allowStale` returns the cached value exactly when
an entry is present and (`allowStale` or the entry's age is strictly below
`_get_cache_ttl key`); consequently, for a key whose resolved TTL is zero a
fresh read returns absent for every entry stored at or before `now`, while
a stale-allowed read returns the stored value whenever an entry exists. -/
theorem C5_cache_get (cache : Cache) (now : ℚ) (key : String) :
    (∀ (allowStale : Bool) (v : ℚ),
      _get_cached cache now key allowStale = some v ↔
        ∃ t, cacheLookup cache key = some (t, v) ∧
          (allowStale = true ∨ now - t < _get_cache_ttl key)) ∧
    (_get_cache_ttl key = 0 →
      ∀ t v, cacheLookup cache key = some (t, v) →
        (t ≤ now → _get_cached cache now key false = none) ∧
        _get_cached cache now key true = some v) := by
  constructor
  · intro allowStale v
    cases h : cacheLookup cache key with
    | none => simp [_get_cached, h]
    | some tv =>
      obtain ⟨t, v0⟩ := tv
      by_cases hc : (allowStale = true ∨ now - t < _get_cache_ttl key)
      · simp only [_get_cached, h, if_pos hc]
        constructor
        · intro h2
          have hv : v0 = v := by simpa using h2
          exact ⟨t, by rw [hv], hc⟩
        · rintro ⟨t2, ht2, _⟩
          have hv : v0 = v := by
            simp only [Option.some.injEq, Prod.mk.injEq] at ht2
            exact ht2.2
          exact congrArg some hv
      · simp only [_get_cached, h, if_neg hc]
        constructor
        · intro h2; exact absurd h2 (by simp)
        · rintro ⟨t2, ht2, hor⟩
          have hp : t = t2 ∧ v0 = v := by
            simp only [Option.some.injEq, Prod.mk.injEq] at ht2
            exact ht2
          rw [← hp.1] at hor
          exact absurd hor hc
  · intro h0 t v hl
    refine ⟨fun hle => ?_, ?_⟩
    · have hneg : ¬ (now - t < _get_cache_ttl key) := by rw [h0]; linarith
      simp [_get_cached, hl, hneg]
    · simp [_get_cached, hl]

/-- C5 witness: on the stale-cache state, a fresh read of the zero-TTL key
`stock:AAPL` misses while a stale-allowed read returns the stored 100. -/
theorem C5_cache_get_witness :
    _get_cached cacheStale 5 "stock:AAPL" false = none ∧
    _get_cached cacheStale 5 "stock:AAPL" true = some 100 := by
  have h := (C5_cache_get cacheStale 5 "stock:AAPL").2 (by decide) 0 100 (by decide)
  exact ⟨h.1 (by norm_num), h.2⟩

/-! ## C7: the 7-day domestic previous-close scan -/

/-- Casting helper for the backward day scan. -/
lemma int_sub_succ (day : ℤ) (j : ℕ) :
    day - ((j + 1 : ℕ) : ℤ) = day - 1 - (j : ℤ) := by push_cast; ring

/-- The queried-day trace of one more scan step. -/
lemma range_map_krx (s : String) (day : ℤ) (n : ℕ) :
    (List.range (n + 1)).map (fun (j : ℕ) => ProviderCall.krx s (day - (j : ℤ))) =
      ProviderCall.krx s day ::
        (List.range n).map (fun (j : ℕ) => ProviderCall.krx s (day - 1 - (j : ℤ))) := by
  rw [List.range_succ_eq_map, List.map_cons, List.map_map]
  refine congrArg₂ _ (by norm_num) ?_
  apply List.map_congr_left
  intro j _
  simp only [Function.comp_apply]
  refine congrArg _ ?_
  push_cast
  ring

/-- If every offset within the remaining fuel has no data, the scan fails
after querying exactly those days. -/
lemma krxScanAux_all_none (f : ℤ → Option ℚ) (s : String) :
    ∀ (fuel : ℕ) (day : ℤ), (∀ j : ℕ, j < fuel → f (day - j) = none) →
      krxScanAux f s fuel day =
        (none, (List.range fuel).map (fun (j : ℕ) => ProviderCall.krx s (day - (j : ℤ)))) := by
  intro fuel
  induction fuel with
  | zero => intro day _; simp [krxScanAux]
  | succ n ih =>
    intro day h
    have h0 : f day = none := by simpa using h 0 (Nat.succ_pos n)
    have hrest := ih (day - 1) (fun j hj => by
      have h2 := h (j + 1) (Nat.succ_lt_succ hj)
      rwa [int_sub_succ] at h2)
    simp only [krxScanAux, h0, hrest, range_map_krx]

/-- If the first `k` offsets have no data and offset `k` (within fuel) has
close `c`, the scan returns `c` after querying exactly offsets `0..k`. -/
lemma krxScanAux_found (f : ℤ → Option ℚ) (s : String) (c : ℚ) :
    ∀ (k fuel : ℕ) (day : ℤ), k < fuel → (∀ j : ℕ, j < k → f (day - j) = none) →
      f (day - k) = some c →
      krxScanAux f s fuel day =
        (some c,
          (List.range (k + 1)).map (fun (j : ℕ) => ProviderCall.krx s (day - (j : ℤ)))) := by
  intro k
  induction k with
  | zero =>
    intro fuel day hk _ hc
    obtain ⟨m, rfl⟩ : ∃ m, fuel = m + 1 := ⟨fuel - 1, by omega⟩
    have h0 : f day = some c := by simpa using hc
    simp [krxScanAux, h0, List.range_succ]
  | succ n ih =>
    intro fuel day hk h0 hc
    obtain ⟨m, rfl⟩ : ∃ m, fuel = m + 1 := ⟨fuel - 1, by omega⟩
    have hday : f day = none := by simpa using h0 0 (Nat.succ_pos n)
    have ih2 := ih m (day - 1) (by omega)
      (fun j hj => by
        have h2 := h0 (j + 1) (by omega)
        rwa [int_sub_succ] at h2)
      (by rw [← int_sub_succ]; exact hc)
    simp only [krxScanAux, hday, ih2, range_map_krx]

/-- C7: domestic-equity resolution scans backward day by day from the
reference date for at most 7 calendar days; it returns the close of the
first day with a non-empty trading record, having queried exactly the days
up to that hit (never past the window), and when all 7 days are empty it
fails with the explicit no-data error after querying exactly the 7-day
window. -/
theorem C7_krx_scan (env : Env) (s : String) (k : ℕ) (c : ℚ) :
    (k < 7 → (∀ j : ℕ, j < k → env.krx s (env.today - j) = none) →
      env.krx s (env.today - k) = some c →
      _fetch_krx_close_price env s =
        (.ok c,
          (List.range (k + 1)).map
            (fun (j : ℕ) => ProviderCall.krx s (env.today - (j : ℤ))))) ∧
    ((∀ j : ℕ, j < 7 → env.krx s (env.today - j) = none) →
      _fetch_krx_close_price env s =
        (.error (.noData ("No price data for " ++ s)),
          (List.range 7).map
            (fun (j : ℕ) => ProviderCall.krx s (env.today - (j : ℤ))))) := by
  constructor
  · intro hk h0 hc
    have := krxScanAux_found (env.krx s) s c k 7 env.today hk h0 hc
    simp [_fetch_krx_close_price, this]
  · intro h
    have := krxScanAux_all_none (env.krx s) s 7 env.today h
    simp [_fetch_krx_close_price, this]

/-- C7 witness: the spec's own scenario — the reference day and the day
before have no record, the third day back does. -/
theorem C7_krx_scan_witness :
    _fetch_krx_close_price envKrxThird "005930" =
      (.ok 70000,
        [ProviderCall.krx "005930" 0, ProviderCall.krx "005930" (-1),
          ProviderCall.krx "005930" (-2)]) := by
  have h := (C7_krx_scan envKrxThird "005930" 2 70000).1 (by norm_num)
    (by decide) (by decide)
  rw [h]
  norm_num [envKrxThird, envFxDown, List.range_succ]

/-! ## C8: snapshot market-hours semantics (spec-modelled) -/

/-- C8: for the 09:30-16:00 weekday market window, a weekday request at
09:29:59 selects previous-close semantics with note "last close" and at
09:30:00 selects live semantics with note "live"; on weekends every time of
day selects previous-close semantics. -/
theorem C8_market_hours (weekday s : ℕ) :
    (weekday < 5 →
      snapshot_mode weekday 34199 = .prevClose ∧
      snapshot_note weekday 34199 = "last close" ∧
      snapshot_mode weekday 34200 = .live ∧
      snapshot_note weekday 34200 = "live") ∧
    (5 ≤ weekday →
      snapshot_mode weekday s = .prevClose ∧
      snapshot_note weekday s = "last close") := by
  constructor
  · intro hw
    have h1 : us_market_is_open weekday 34199 = false := by
      simp [us_market_is_open]
    have h2 : us_market_is_open weekday 34200 = true := by
      simp [us_market_is_open, hw]
    simp [snapshot_mode, snapshot_note, h1, h2]
  · intro hw
    have h1 : us_market_is_open weekday s = false := by
      simp [us_market_is_open]
      omega
    simp [snapshot_mode, snapshot_note, h1]

/-- C8 witness: a Wednesday at both boundary instants and a Saturday
mid-day. -/
theorem C8_market_hours_witness :
    (snapshot_mode 2 34199 = .prevClose ∧ snapshot_note 2 34199 = "last close" ∧
      snapshot_mode 2 34200 = .live ∧ snapshot_note 2 34200 = "live") ∧
    (snapshot_mode 5 43200 = .prevClose ∧ snapshot_note 5 43200 = "last close") :=
  ⟨(C8_market_hours 2 43200).1 (by norm_num),
    (C8_market_hours 5 43200).2 (by norm_num)⟩

/-! ## Characterization lemmas for the foreign-equity fallback chain -/

/-- Without an API key the Finnhub adapter fails fast, with no call. -/
lemma finnhub_skip (env : Env) (symbol : String) (hk : env.finnhub_api_key = false) :
    _fetch_from_finnhub env symbol = (none, []) := by
  simp [_fetch_from_finnhub, hk]

/-- The key guard at the head of `fetch_stock_usd_price` coincides with the
guard inside `_fetch_from_finnhub`. -/
lemma fetch_stock_head (env : Env) (symbol : String) :
    (if env.finnhub_api_key then _fetch_from_finnhub env symbol else (none, [])) =
      _fetch_from_finnhub env symbol := by
  cases hk : env.finnhub_api_key
  · simp [finnhub_skip env symbol hk]
  · simp

/-- A successful Finnhub fetch is one call returning the price. -/
lemma finnhub_of_success (env : Env) (symbol : String) (p : ℚ)
    (h : (_fetch_from_finnhub env symbol).1 = some p) :
    _fetch_from_finnhub env symbol = (some p, [ProviderCall.finnhub symbol]) := by
  cases hk : env.finnhub_api_key
  · rw [finnhub_skip env symbol hk] at h
    exact absurd h (by simp)
  · simp only [_fetch_from_finnhub, hk, if_true] at h ⊢
    rcases hr : env.finnhubResp symbol with _ | body
    · simp [hr] at h
    · simp only [hr] at h ⊢
      by_cases hz : body.getD 0 = 0
      · simp [hz] at h
      · simp only [if_neg hz] at h ⊢
        simp only [Option.some.injEq] at h
        rw [h]

/-- The Yahoo single-quote adapter always makes exactly one call. -/
lemma yahoo_eval (env : Env) (symbol : String) :
    _fetch_from_yahoo env symbol =
      ((_fetch_from_yahoo env symbol).1, [ProviderCall.yahoo symbol]) := by
  rcases hr : env.yahooResp symbol with _ | (_ | q) <;> simp [_fetch_from_yahoo, hr]

/-- The Stooq adapter always makes exactly one call. -/
lemma stooq_eval (env : Env) (symbol : String) :
    _fetch_from_stooq env symbol =
      ((_fetch_from_stooq env symbol).1, [ProviderCall.stooq symbol]) := by
  rcases hr : env.stooqResp symbol with _ | text <;> simp [_fetch_from_stooq, hr]

/-- Chain outcome: Finnhub answers. -/
lemma fetch_stock_finnhub_ok (env : Env) (symbol : String) (now : ℚ) (cache : Cache)
    (p : ℚ) (h1 : (_fetch_from_finnhub env symbol).1 = some p) :
    fetch_stock_usd_price env symbol now cache =
      (some (p, "finnhub"), _set_cache cache now ("stock:" ++ symbol) p,
        [ProviderCall.finnhub symbol]) := by
  rw [fetch_stock_usd_price, fetch_stock_head, finnhub_of_success env symbol p h1]

/-- Chain outcome: Finnhub fails (or is skipped), Yahoo answers. -/
lemma fetch_stock_yahoo_ok (env : Env) (symbol : String) (now : ℚ) (cache : Cache)
    (p : ℚ) (h1 : (_fetch_from_finnhub env symbol).1 = none)
    (h2 : (_fetch_from_yahoo env symbol).1 = some p) :
    fetch_stock_usd_price env symbol now cache =
      (some (p, "yahoo"), _set_cache cache now ("stock:" ++ symbol) p,
        (_fetch_from_finnhub env symbol).2 ++ [ProviderCall.yahoo symbol]) := by
  rcases hF : _fetch_from_finnhub env symbol with ⟨o1, t1⟩
  rw [hF] at h1
  subst h1
  rw [fetch_stock_usd_price, fetch_stock_head, hF, yahoo_eval, h2]

/-- Chain outcome: Finnhub and Yahoo fail, Stooq answers. -/
lemma fetch_stock_stooq_ok (env : Env) (symbol : String) (now : ℚ) (cache : Cache)
    (p : ℚ) (h1 : (_fetch_from_finnhub env symbol).1 = none)
    (h2 : (_fetch_from_yahoo env symbol).1 = none)
    (h3 : (_fetch_from_stooq env symbol).1 = some p) :
    fetch_stock_usd_price env symbol now cache =
      (some (p, "stooq"), _set_cache cache now ("stock:" ++ symbol) p,
        (_fetch_from_finnhub env symbol).2 ++ [ProviderCall.yahoo symbol] ++
          [ProviderCall.stooq symbol]) := by
  rcases hF : _fetch_from_finnhub env symbol with ⟨o1, t1⟩
  rw [hF] at h1
  subst h1
  rw [fetch_stock_usd_price, fetch_stock_head, hF, yahoo_eval, h2, stooq_eval, h3]

/-- Chain outcome: every adapter fails; the cache is left untouched. -/
lemma fetch_stock_fail (env : Env) (symbol : String) (now : ℚ) (cache : Cache)
    (h1 : (_fetch_from_finnhub env symbol).1 = none)
    (h2 : (_fetch_from_yahoo env symbol).1 = none)
    (h3 : (_fetch_from_stooq env symbol).1 = none) :
    fetch_stock_usd_price env symbol now cache =
      (none, cache,
        (_fetch_from_finnhub env symbol).2 ++ [ProviderCall.yahoo symbol] ++
          [ProviderCall.stooq symbol]) := by
  rcases hF : _fetch_from_finnhub env symbol with ⟨o1, t1⟩
  rw [hF] at h1
  subst h1
  rw [fetch_stock_usd_price, fetch_stock_head, hF, yahoo_eval, h2, stooq_eval, h3]

/-! ## C3: strict adapter priority in single foreign-equity resolution -/

/-- C3: within one `fetch_stock_usd_price` run the adapters are consulted
in the fixed order Finnhub, Yahoo, Stooq; a later adapter runs only after
every earlier one failed or was skipped for a missing key (its trace is
empty exactly then); the first success is cached under `stock:symbol` and
returned tagged with that adapter's name, with no later call in the trace;
exhaustion performs all three steps and leaves the cache unchanged. -/
theorem C3_fallback_order (env : Env) (symbol : String) (now : ℚ) (cache : Cache) (p : ℚ) :
    ((_fetch_from_finnhub env symbol).1 = some p →
      fetch_stock_usd_price env symbol now cache =
        (some (p, "finnhub"), _set_cache cache now ("stock:" ++ symbol) p,
          [ProviderCall.finnhub symbol])) ∧
    ((_fetch_from_finnhub env symbol).1 = none → (_fetch_from_yahoo env symbol).1 = some p →
      fetch_stock_usd_price env symbol now cache =
        (some (p, "yahoo"), _set_cache cache now ("stock:" ++ symbol) p,
          (_fetch_from_finnhub env symbol).2 ++ [ProviderCall.yahoo symbol])) ∧
    ((_fetch_from_finnhub env symbol).1 = none → (_fetch_from_yahoo env symbol).1 = none →
      (_fetch_from_stooq env symbol).1 = some p →
      fetch_stock_usd_price env symbol now cache =
        (some (p, "stooq"), _set_cache cache now ("stock:" ++ symbol) p,
          (_fetch_from_finnhub env symbol).2 ++ [ProviderCall.yahoo symbol] ++
            [ProviderCall.stooq symbol])) ∧
    ((_fetch_from_finnhub env symbol).1 = none → (_fetch_from_yahoo env symbol).1 = none →
      (_fetch_from_stooq env symbol).1 = none →
      fetch_stock_usd_price env symbol now cache =
        (none, cache,
          (_fetch_from_finnhub env symbol).2 ++ [ProviderCall.yahoo symbol] ++
            [ProviderCall.stooq symbol])) :=
  ⟨fun h1 => fetch_stock_finnhub_ok env symbol now cache p h1,
    fun h1 h2 => fetch_stock_yahoo_ok env symbol now cache p h1 h2,
    fun h1 h2 h3 => fetch_stock_stooq_ok env symbol now cache p h1 h2 h3,
    fun h1 h2 h3 => fetch_stock_fail env symbol now cache h1 h2 h3⟩

/-- C3 witness: the spec's fallback test — adapter 1 stubbed to fail,
adapter 2 stubbed to succeed; the result is tagged by adapter 2 and
adapter 3 is never invoked. -/
theorem C3_fallback_order_witness :
    fetch_stock_usd_price envYahooOnly "AAPL" 0 [] =
      (some (123, "yahoo"), [("stock:AAPL", 0, 123)],
        [ProviderCall.finnhub "AAPL", ProviderCall.yahoo "AAPL"]) := by
  have h := (C3_fallback_order envYahooOnly "AAPL" 0 [] 123).2.1 rfl rfl
  rw [h]
  rfl

/-! ## C10: unsupported asset classes and the BTC-only crypto class -/

/-- C10: `get_price_krw` raises the unsupported-asset `ValueError` — leaving
the cache untouched and consulting no provider — for any crypto symbol
other than BTC (after uppercasing) and for any asset type outside stock,
kr_stock and crypto; conversely a symbol uppercasing to BTC never hits that
error, so the crypto class supports exactly BTC. -/
theorem C10_unsupported (env : Env) (now : ℚ) (cache : Cache) (symbol asset_type : String) :
    (asset_type = "crypto" → pyUpper symbol ≠ "BTC" →
      get_price_krw env now cache symbol asset_type = (.error .unsupportedAsset, cache, [])) ∧
    (asset_type ≠ "stock" → asset_type ≠ "kr_stock" → asset_type ≠ "crypto" →
      get_price_krw env now cache symbol asset_type = (.error .unsupportedAsset, cache, [])) ∧
    (pyUpper symbol = "BTC" →
      (get_price_krw env now cache symbol "crypto").1 ≠ .error .unsupportedAsset) := by
  refine ⟨?_, ?_, ?_⟩
  · intro hty hbtc
    subst hty
    rw [get_price_krw, if_neg (by decide), if_neg (by decide),
      if_neg (fun hc => hbtc hc.2)]
  · intro h1 h2 h3
    rw [get_price_krw, if_neg h1, if_neg h2, if_neg (fun hc => h3 hc.1)]
  · intro hbtc
    rw [get_price_krw, if_neg (by decide), if_neg (by decide),
      if_pos (by exact ⟨rfl, hbtc⟩)]
    rcases hf : fetch_btc_krw_price env now cache with ⟨o, c1, t1⟩
    cases o with
    | some p => simp
    | none =>
      cases hs : _get_cached c1 now "btc" true with
      | some v => simp [hs]
      | none => simp [hs]

/-- C10 witness: a non-BTC crypto symbol and a freeform asset type. -/
theorem C10_unsupported_witness :
    get_price_krw envFxDown 0 [] "ETH" "crypto" = (.error .unsupportedAsset, [], []) ∧
    get_price_krw envFxDown 0 [] "GOLD" "manual" = (.error .unsupportedAsset, [], []) :=
  ⟨(C10_unsupported envFxDown 0 [] "ETH" "crypto").1 rfl (by decide),
    (C10_unsupported envFxDown 0 [] "GOLD" "manual").2.1 (by decide) (by decide) (by decide)⟩

/-! ## C4: zero-price handling per adapter -/

/-- C4 counterexample: with a zero `regularMarketPrice` from Yahoo and a
zero close from Stooq, both adapters return 0 as a valid quote instead of
treating it as a no-data failure, refuting the claim for two of the three
adapters. -/
theorem C4_counterexample :
    (_fetch_from_yahoo envZeroQuote "AAPL").1 = some 0 ∧
    (_fetch_from_stooq envZeroQuote "AAPL").1 = some 0 := by
  constructor
  · rfl
  · decide

/-- C4 (amended): only Finnhub treats a reported zero price as a no-data
failure; Yahoo returns a present zero `regularMarketPrice` as a valid
quote, and Stooq returns a zero close as a valid quote. -/
theorem C4_zero_price :
    (∀ (env : Env) (s : String) (body : Option ℚ),
      env.finnhubResp s = some body → body.getD 0 = 0 →
      (_fetch_from_finnhub env s).1 = none) ∧
    (∀ (env : Env) (s : String),
      env.yahooResp s = some (some 0) → (_fetch_from_yahoo env s).1 = some 0) ∧
    (∀ (env : Env) (s text : String),
      env.stooqResp s = some text → stooqParse text = some 0 →
      (_fetch_from_stooq env s).1 = some 0) := by
  refine ⟨?_, ?_, ?_⟩
  · intro env s body hresp hzero
    cases hk : env.finnhub_api_key with
    | false => simp [_fetch_from_finnhub, hk]
    | true => simp [_fetch_from_finnhub, hk, hresp, hzero]
  · intro env s hresp
    simp [_fetch_from_yahoo, hresp]
  · intro env s text hresp hparse
    simp [_fetch_from_stooq, hresp, hparse]

/-- C4 witness: Finnhub's zero sentinel is rejected while Yahoo and Stooq
pass zero through, on the concrete zero-quote environment. -/
theorem C4_zero_price_witness :
    (_fetch_from_finnhub envFinnhubZero "AAPL").1 = none ∧
    (_fetch_from_yahoo envZeroQuote "MSFT").1 = some 0 := by
  constructor
  · exact C4_zero_price.1 envFinnhubZero "AAPL" (some 0) rfl rfl
  · exact C4_zero_price.2.1 envZeroQuote "MSFT" rfl

/-! ## C2: stale-cache recovery on chain exhaustion -/

/-- With a fresh-cache miss and no pykrx data on any day, domestic-equity
fetching fails with the no-data error, leaving the cache untouched. -/
lemma fetch_kr_fail (env : Env) (now : ℚ) (cache : Cache) (symbol : String)
    (hfresh : _get_cached cache now
      ("kr_stock:" ++ (pySplit symbol '.').headD symbol) false = none)
    (hkrx : ∀ day, env.krx ((pySplit symbol '.').headD symbol) day = none) :
    fetch_kr_stock_krw_price env now cache symbol =
      (.error (.noData ("No price data for " ++ (pySplit symbol '.').headD symbol)), cache,
        (List.range 7).map
          (fun (j : ℕ) =>
            ProviderCall.krx ((pySplit symbol '.').headD symbol) (env.today - (j : ℤ)))) := by
  have hscan := krxScanAux_all_none (env.krx ((pySplit symbol '.').headD symbol))
    ((pySplit symbol '.').headD symbol) 7 env.today (fun j _ => hkrx _)
  simp only [fetch_kr_stock_krw_price, hfresh, _fetch_krx_close_price, hscan]

/-- C2 (amended): when every provider in a symbol's chain fails, the
recovery path is a stale cache read keyed by the CALLER-SUPPLIED symbol:
for foreign equity both `stock:symbol` and `usdkrw` must be stale-readable
(then the product is returned tagged `cache`, else the bare re-raise
surfaces); for domestic equity the read key `kr_stock:symbol` keeps any
exchange suffix even though successful fetches store under the stripped
key, so the stored value is returned tagged `cache` exactly when the
unstripped read hits, and otherwise the no-data failure surfaces; for BTC
the key `btc` matches the storage key exactly. -/
theorem C2_stale_recovery (env : Env) (now : ℚ) (cache : Cache) (symbol : String) :
    ((_fetch_from_finnhub env symbol).1 = none →
      (_fetch_from_yahoo env symbol).1 = none →
      (_fetch_from_stooq env symbol).1 = none →
      ((∀ v r, _get_cached cache now ("stock:" ++ symbol) true = some v →
          _get_cached cache now "usdkrw" true = some r →
          (get_price_krw env now cache symbol "stock").1 = .ok ⟨v * r, "cache", some v⟩) ∧
        ((_get_cached cache now ("stock:" ++ symbol) true = none ∨
            _get_cached cache now "usdkrw" true = none) →
          (get_price_krw env now cache symbol "stock").1 = .error .bareRaise))) ∧
    (_get_cached cache now ("kr_stock:" ++ (pySplit symbol '.').headD symbol) false = none →
      (∀ day, env.krx ((pySplit symbol '.').headD symbol) day = none) →
      ((∀ v, _get_cached cache now ("kr_stock:" ++ symbol) true = some v →
          (get_price_krw env now cache symbol "kr_stock").1 = .ok ⟨v, "cache", none⟩) ∧
        (_get_cached cache now ("kr_stock:" ++ symbol) true = none →
          (get_price_krw env now cache symbol "kr_stock").1 =
            .error (.noData ("No price data for " ++ (pySplit symbol '.').headD symbol))))) ∧
    (pyUpper symbol = "BTC" → env.upbitResp = none →
      _get_cached cache now "btc" false = none →
      ((∀ v, _get_cached cache now "btc" true = some v →
          (get_price_krw env now cache symbol "crypto").1 = .ok ⟨v, "cache", none⟩) ∧
        (_get_cached cache now "btc" true = none →
          (get_price_krw env now cache symbol "crypto").1 = .error .transport))) := by
  refine ⟨?_, ?_, ?_⟩
  · intro h1 h2 h3
    have hfetch := fetch_stock_fail env symbol now cache h1 h2 h3
    constructor
    · intro v r hv hr
      simp +decide [get_price_krw, hfetch, hv, hr]
    · intro hor
      rcases hor with h | h
      · simp +decide [get_price_krw, hfetch, h]
      · cases h1' : _get_cached cache now ("stock:" ++ symbol) true with
        | none => simp +decide [get_price_krw, hfetch, h1']
        | some v => simp +decide [get_price_krw, hfetch, h1', h]
  · intro hfresh hkrx
    have hkfail := fetch_kr_fail env now cache symbol hfresh hkrx
    constructor
    · intro v hv
      simp +decide [get_price_krw, hkfail, hv]
    · intro hnone
      simp +decide [get_price_krw, hkfail, hnone]
  · intro hbtc hup hfresh
    have hbfail : fetch_btc_krw_price env now cache = (none, cache, [ProviderCall.upbit]) := by
      simp [fetch_btc_krw_price, hfresh, hup]
    constructor
    · intro v hv
      simp +decide [get_price_krw, hbtc, hbfail, hv]
    · intro hnone
      simp +decide [get_price_krw, hbtc, hbfail, hnone]

/-- C2 witness: with every provider down, a suffix-free domestic symbol
recovers its stored value tagged `cache`, and a foreign symbol with both
the price and the FX rate stale-cached recovers their product. -/
theorem C2_stale_recovery_witness :
    (get_price_krw envAllDown 2 cacheKrStored "005930" "kr_stock").1 =
      .ok ⟨70000, "cache", none⟩ ∧
    (get_price_krw envAllDown 5 cacheStale "AAPL" "stock").1 =
      .ok ⟨130000, "cache", some 100⟩ := by
  constructor
  · exact ((C2_stale_recovery envAllDown 2 cacheKrStored "005930").2.1
      (by norm_num +decide [_get_cached, cacheLookup, cacheKrStored, _get_cache_ttl,
        ttlScan, strHasPrefix, _CACHE_TTL_MAP, _DEFAULT_CACHE_TTL, List.isPrefixOf,
        pySplit, splitOnChar])
      (fun _ => rfl)).1 70000 (by decide)
  · have h := ((C2_stale_recovery envAllDown 5 cacheStale "AAPL").1
      rfl rfl rfl).1 100 1300 (by decide) (by decide)
    rw [h]
    norm_num

/-! ## Closed counterexamples for C1, C2, C6 and C9 -/

/-- C1 counterexample: with both FX sources down, a batch holding one
foreign-equity symbol and BTC does not return a result map at all — the FX
failure escapes `get_price_krw_batch` — and the crypto partition is never
consulted (no Upbit call in the trace), even though single resolution of
BTC succeeds in the same environment. -/
theorem C1_counterexample :
    (get_price_krw_batch envFxDown 0 [] [("AAPL", "stock"), ("BTC", "crypto")]).1 = none ∧
    ProviderCall.upbit ∉
      (get_price_krw_batch envFxDown 0 [] [("AAPL", "stock"), ("BTC", "crypto")]).2.2 ∧
    (get_price_krw envFxDown 0 [] "BTC" "crypto").1 =
      .ok ⟨50000000, "upbit", none⟩ := by
  refine ⟨rfl, by decide, rfl⟩

/-- C2 counterexample: a successful fetch of `005930.KS` stores its value
under the suffix-stripped key `kr_stock:005930`; yet with that entry in the
cache and every provider failing, resolution of `005930.KS` raises the
no-data error instead of returning the stored value tagged `cache`,
because the recovery read uses the unstripped key. -/
theorem C2_counterexample :
    (fetch_kr_stock_krw_price envKrxUp 1 [] "005930.KS").2.1 =
      [("kr_stock:005930", 1, 70000)] ∧
    cacheLookup cacheKrStored "kr_stock:005930" = some (1, 70000) ∧
    (get_price_krw envFxDown 2 cacheKrStored "005930.KS" "kr_stock").1 =
      .error (.noData "No price data for 005930") := by
  refine ⟨rfl, rfl, ?_⟩
  norm_num +decide [get_price_krw, fetch_kr_stock_krw_price, _get_cached, cacheLookup,
    _get_cache_ttl, ttlScan, strHasPrefix, _fetch_krx_close_price, krxScanAux,
    envFxDown, cacheKrStored, pySplit, splitOnChar, _set_cache,
    _CACHE_TTL_MAP, _DEFAULT_CACHE_TTL, List.isPrefixOf]

/-- C6 counterexample: a batch naming AAPL twice performs two Finnhub
fetches for AAPL, not one (the foreign-equity partition is not
deduplicated before the Finnhub stage). -/
theorem C6_counterexample :
    ((get_price_krw_batch envFxUp 0 [] [("AAPL", "stock"), ("AAPL", "stock")]).2.2.count
        (ProviderCall.finnhub "AAPL")) = 2 ∧
    (get_price_krw_batch envFxUp 0 [] [("AAPL", "stock"), ("AAPL", "stock")]).1 =
      some [("AAPL", ⟨195000, "finnhub", some 150⟩)] := by
  constructor
  · norm_num +decide [get_price_krw_batch, fetch_stocks_usd_prices_batch,
      _fetch_stocks_from_finnhub_batch, finnhubBatchAux, _fetch_from_finnhub,
      fetch_usd_krw_rate, _get_cached, cacheLookup, _get_cache_ttl, ttlScan,
      strHasPrefix, _set_cache, dinsert, dlookup, dedupFirst, dupdate,
      stooqFallbackAux, otherAssetsAux, envFxUp, envFxDown, List.count_cons,
      _CACHE_TTL_MAP, _DEFAULT_CACHE_TTL, List.isPrefixOf]
  · norm_num +decide [get_price_krw_batch, fetch_stocks_usd_prices_batch,
      _fetch_stocks_from_finnhub_batch, finnhubBatchAux, _fetch_from_finnhub,
      fetch_usd_krw_rate, _get_cached, cacheLookup, _get_cache_ttl, ttlScan,
      strHasPrefix, _set_cache, dinsert, dlookup, dedupFirst, dupdate,
      stooqFallbackAux, otherAssetsAux, envFxUp, envFxDown,
      _CACHE_TTL_MAP, _DEFAULT_CACHE_TTL, List.isPrefixOf]

/-! ## C1: batch-level FX failure -/

/-- The Finnhub single fetch only ever records a Finnhub call. -/
lemma finnhub_single_trace_side (env : Env) (s : String) :
    ∀ c ∈ (_fetch_from_finnhub env s).2, stockSideCall c = true := by
  cases hk : env.finnhub_api_key
  · simp [finnhub_skip env s hk]
  · simp only [_fetch_from_finnhub, hk, if_true]
    rcases hr : env.finnhubResp s with _ | body
    · simp [stockSideCall]
    · by_cases hz : body.getD 0 = 0 <;> simp [hz, stockSideCall]

/-- The Finnhub batch stage only records Finnhub calls. -/
lemma finnhubBatchAux_trace (env : Env) (now : ℚ) :
    ∀ (syms : List String) (acc : List (String × ℚ × String)) (cache : Cache)
      (tr : List ProviderCall), (∀ c ∈ tr, stockSideCall c = true) →
      ∀ c ∈ (finnhubBatchAux env now syms acc cache tr).2.2, stockSideCall c = true := by
  intro syms
  induction syms with
  | nil => intro acc cache tr htr; simpa [finnhubBatchAux] using htr
  | cons s rest ih =>
    intro acc cache tr htr
    have hside := finnhub_single_trace_side env s
    rcases hF : _fetch_from_finnhub env s with ⟨o, t⟩
    rw [hF] at hside
    have hnext : ∀ c ∈ tr ++ t, stockSideCall c = true := by
      intro c hc
      rcases List.mem_append.mp hc with h | h
      · exact htr c h
      · exact hside c h
    cases o with
    | some p =>
      simp only [finnhubBatchAux, hF]
      exact ih _ _ _ hnext
    | none =>
      simp only [finnhubBatchAux, hF]
      exact ih _ _ _ hnext

/-- The Yahoo batch stage only records a batch-quote call. -/
lemma yahoo_batch_trace (env : Env) (now : ℚ) (cache : Cache) (syms : List String) :
    ∀ c ∈ (_fetch_stocks_from_yahoo_batch env now cache syms).2.2,
      stockSideCall c = true := by
  cases syms with
  | nil => simp [_fetch_stocks_from_yahoo_batch]
  | cons s rest =>
    rcases hr : env.yahooBatchResp (s :: rest) with _ | quotes <;>
      simp [_fetch_stocks_from_yahoo_batch, hr, stockSideCall]

/-- The whole foreign-equity batch chain records no Upbit or pykrx call. -/
lemma fetch_batch_trace (env : Env) (now : ℚ) (cache : Cache) (syms : List String) :
    ∀ c ∈ (fetch_stocks_usd_prices_batch env now cache syms).2.2,
      stockSideCall c = true := by
  cases syms with
  | nil => simp [fetch_stocks_usd_prices_batch]
  | cons s rest =>
    have hstep1 : ∀ c ∈ (if env.finnhub_api_key
        then _fetch_stocks_from_finnhub_batch env now cache (s :: rest)
        else ([], cache, [])).2.2, stockSideCall c = true := by
      cases hk : env.finnhub_api_key
      · simp
      · simp only [hk, if_true]
        exact finnhubBatchAux_trace env now (s :: rest) [] cache [] (by simp)
    simp only [fetch_stocks_usd_prices_batch]
    cases hfail : dedupFirst ((s :: rest).filter
        (fun x => dlookup (if env.finnhub_api_key
          then _fetch_stocks_from_finnhub_batch env now cache (s :: rest)
          else ([], cache, [])).1 x = none)) with
    | nil =>
      simp only [hfail]
      exact hstep1
    | cons f frest =>
      simp only [hfail]
      intro c hc
      rcases List.mem_append.mp hc with h | h
      · exact hstep1 c h
      · exact yahoo_batch_trace env now _ (f :: frest) c h

/-- A foreign-equity cache key never collides with the FX key. -/
lemma stock_key_ne_usdkrw (s : String) : ¬("stock:" ++ s = "usdkrw") := by
  intro h
  have h2 : ("stock:" ++ s).data = "usdkrw".data := congrArg String.data h
  have h3 : ("stock:" ++ s).data = "stock:".data ++ s.data := rfl
  rw [h3] at h2
  injection h2 with hc _
  exact absurd hc (by decide)

/-- The foreign-equity batch stage writes only `stock:` keys, so the FX
entry is untouched. -/
lemma finnhubBatchAux_usdkrw (env : Env) (now : ℚ) :
    ∀ (syms : List String) (acc : List (String × ℚ × String)) (cache : Cache)
      (tr : List ProviderCall),
      cacheLookup (finnhubBatchAux env now syms acc cache tr).2.1 "usdkrw" =
        cacheLookup cache "usdkrw" := by
  intro syms
  induction syms with
  | nil => intro acc cache tr; simp [finnhubBatchAux]
  | cons s rest ih =>
    intro acc cache tr
    rcases hF : _fetch_from_finnhub env s with ⟨o, t⟩
    cases o with
    | some p =>
      simp only [finnhubBatchAux, hF, ih, _set_cache]
      simp [cacheLookup, stock_key_ne_usdkrw]
    | none => simp only [finnhubBatchAux, hF, ih]

/-- The Yahoo quote-processing loop writes only `stock:` keys. -/
lemma yahooQuotesAux_usdkrw (now : ℚ) :
    ∀ (quotes : List (String × Option ℚ)) (acc : List (String × ℚ × String))
      (cache : Cache),
      cacheLookup (yahooQuotesAux now quotes acc cache).2 "usdkrw" =
        cacheLookup cache "usdkrw" := by
  intro quotes
  induction quotes with
  | nil => intro acc cache; simp [yahooQuotesAux]
  | cons q rest ih =>
    intro acc cache
    obtain ⟨sym, priceOpt⟩ := q
    cases priceOpt with
    | some p =>
      by_cases hs : sym = ""
      · simp [yahooQuotesAux, hs, ih]
      · simp only [yahooQuotesAux, _set_cache]
        rw [if_pos hs, ih]
        simp [cacheLookup, stock_key_ne_usdkrw]
    | none => simp [yahooQuotesAux, ih]

/-- The Yahoo batch stage leaves the FX cache entry untouched. -/
lemma yahoo_batch_usdkrw (env : Env) (now : ℚ) (cache : Cache) (syms : List String) :
    cacheLookup (_fetch_stocks_from_yahoo_batch env now cache syms).2.1 "usdkrw" =
      cacheLookup cache "usdkrw" := by
  cases syms with
  | nil => simp [_fetch_stocks_from_yahoo_batch]
  | cons s rest =>
    rcases hr : env.yahooBatchResp (s :: rest) with _ | quotes
    · simp [_fetch_stocks_from_yahoo_batch, hr]
    · simp [_fetch_stocks_from_yahoo_batch, hr, yahooQuotesAux_usdkrw]

/-- The whole foreign-equity batch chain leaves the FX cache entry
untouched. -/
lemma fetch_batch_usdkrw (env : Env) (now : ℚ) (cache : Cache) (syms : List String) :
    cacheLookup (fetch_stocks_usd_prices_batch env now cache syms).2.1 "usdkrw" =
      cacheLookup cache "usdkrw" := by
  cases syms with
  | nil => simp [fetch_stocks_usd_prices_batch]
  | cons s rest =>
    have hstep1 : cacheLookup (if env.finnhub_api_key
        then _fetch_stocks_from_finnhub_batch env now cache (s :: rest)
        else ([], cache, [])).2.1 "usdkrw" = cacheLookup cache "usdkrw" := by
      cases hk : env.finnhub_api_key
      · simp
      · simp only [hk, if_true]
        exact finnhubBatchAux_usdkrw env now (s :: rest) [] cache []
    simp only [fetch_stocks_usd_prices_batch]
    cases hfail : dedupFirst ((s :: rest).filter
        (fun x => dlookup (if env.finnhub_api_key
          then _fetch_stocks_from_finnhub_batch env now cache (s :: rest)
          else ([], cache, [])).1 x = none)) with
    | nil =>
      simp only [hfail]
      exact hstep1
    | cons f frest =>
      simp only [hfail]
      rw [yahoo_batch_usdkrw]
      exact hstep1

/-- Cache reads agree whenever the lookups of the key agree. -/
lemma _get_cached_ext (c1 c2 : Cache) (now : ℚ) (key : String) (b : Bool)
    (h : cacheLookup c1 key = cacheLookup c2 key) :
    _get_cached c1 now key b = _get_cached c2 now key b := by
  unfold _get_cached
  rw [h]

/-- C1 (amended): when the batch holds at least one foreign-equity symbol,
the FX cache is cold and both FX providers fail, `get_price_krw_batch`
does not return a result map at all — the FX exception escapes the whole
call — and no provider of any other asset-class partition (Upbit, pykrx)
has been consulted; the failure therefore aborts every partition rather
than being confined to the foreign-equity one. -/
theorem C1_fx_abort (env : Env) (now : ℚ) (cache : Cache)
    (assets : List (String × String))
    (hus : (assets.filter (fun a => a.2 = "stock")).map Prod.fst ≠ [])
    (hcache : _get_cached cache now "usdkrw" false = none)
    (hp : env.fxPrimary = none) (hf : env.fxFallback = none) :
    (get_price_krw_batch env now cache assets).1 = none ∧
    ∀ c ∈ (get_price_krw_batch env now cache assets).2.2, stockSideCall c = true := by
  rcases hmatch : (assets.filter (fun a => a.2 = "stock")).map Prod.fst with _ | ⟨u0, urest⟩
  · exact absurd hmatch hus
  · have hfx0 : _get_cached
        (fetch_stocks_usd_prices_batch env now cache (u0 :: urest)).2.1 now
        "usdkrw" false = none := by
      rw [_get_cached_ext _ cache now "usdkrw" false
        (fetch_batch_usdkrw env now cache (u0 :: urest))]
      exact hcache
    have hrate : fetch_usd_krw_rate env now
        (fetch_stocks_usd_prices_batch env now cache (u0 :: urest)).2.1 =
        (none, (fetch_stocks_usd_prices_batch env now cache (u0 :: urest)).2.1,
          [ProviderCall.fxPrimary, ProviderCall.fxFallback]) := by
      simp only [fetch_usd_krw_rate, hfx0, hp, hf]
    have hbatch : get_price_krw_batch env now cache assets =
        (none, (fetch_stocks_usd_prices_batch env now cache (u0 :: urest)).2.1,
          (fetch_stocks_usd_prices_batch env now cache (u0 :: urest)).2.2 ++
            [ProviderCall.fxPrimary, ProviderCall.fxFallback]) := by
      simp only [get_price_krw_batch, hmatch, hrate]
    rw [hbatch]
    refine ⟨rfl, ?_⟩
    intro c hc
    rcases List.mem_append.mp hc with h | h
    · exact fetch_batch_trace env now cache (u0 :: urest) c h
    · rcases h with _ | ⟨_, _ | ⟨_, h⟩⟩
      · rfl
      · rfl
      · cases h

/-- C1 witness: the concrete FX-down batch from the counterexample, seen
through the amended statement. -/
theorem C1_fx_abort_witness :
    (get_price_krw_batch envFxDown 0 [] [("AAPL", "stock"), ("BTC", "crypto")]).1 =
      none ∧
    ∀ c ∈ (get_price_krw_batch envFxDown 0 []
        [("AAPL", "stock"), ("BTC", "crypto")]).2.2, stockSideCall c = true :=
  C1_fx_abort envFxDown 0 [] [("AAPL", "stock"), ("BTC", "crypto")]
    (by decide) rfl rfl rfl

/-! ## C6: duplicate foreign-equity symbols in a batch -/

/-- C6 (amended): `get_price_krw_batch` does not deduplicate the
foreign-equity partition before the Finnhub stage — a symbol listed twice
is fetched from Finnhub twice (set-difference deduplication applies only
from the Yahoo-batch/Stooq fallback stages on) — while the result map,
keyed by symbol, still carries a single entry shared by both occurrences. -/
theorem C6_no_dedup (env : Env) (now : ℚ) (s : String) (p rate : ℚ)
    (hf : (_fetch_from_finnhub env s).1 = some p)
    (hfx : env.fxPrimary = some rate) :
    (get_price_krw_batch env now [] [(s, "stock"), (s, "stock")]).2.2 =
      [ProviderCall.finnhub s, ProviderCall.finnhub s, ProviderCall.fxPrimary] ∧
    (get_price_krw_batch env now [] [(s, "stock"), (s, "stock")]).1 =
      some [(s, ⟨p * rate, "finnhub", some p⟩)] := by
  have hfF := finnhub_of_success env s p hf
  cases hk : env.finnhub_api_key with
  | false =>
    rw [finnhub_skip env s hk] at hfF
    exact absurd hfF (by simp)
  | true =>
    constructor <;>
      simp +decide [get_price_krw_batch, fetch_stocks_usd_prices_batch,
        _fetch_stocks_from_finnhub_batch, finnhubBatchAux, hfF, hk, fetch_usd_krw_rate,
        _get_cached, cacheLookup, stock_key_ne_usdkrw, hfx, dinsert, dlookup, dedupFirst,
        dupdate, stooqFallbackAux, otherAssetsAux, _set_cache]

/-- C6 witness: the duplicate-AAPL batch at the concrete stub values. -/
theorem C6_no_dedup_witness :
    (get_price_krw_batch envFxUp 0 [] [("AAPL", "stock"), ("AAPL", "stock")]).2.2 =
      [ProviderCall.finnhub "AAPL", ProviderCall.finnhub "AAPL",
        ProviderCall.fxPrimary] ∧
    (get_price_krw_batch envFxUp 0 [] [("AAPL", "stock"), ("AAPL", "stock")]).1 =
      some [("AAPL", ⟨195000, "finnhub", some 150⟩)] := by
  have h := C6_no_dedup envFxUp 0 "AAPL" 150 1300 rfl rfl
  refine ⟨h.1, ?_⟩
  rw [h.2]
  norm_num

/-! ## C9: single versus singleton-batch resolution -/

/-- FX resolution on a cache holding no `usdkrw` entry: primary first,
then fallback, the first success cached. -/
lemma fx_cold (env : Env) (now : ℚ) (c : Cache)
    (hlk : cacheLookup c "usdkrw" = none) :
    fetch_usd_krw_rate env now c =
      match env.fxPrimary, env.fxFallback with
      | some r, _ => (some r, _set_cache c now "usdkrw" r, [ProviderCall.fxPrimary])
      | none, some r =>
          (some r, _set_cache c now "usdkrw" r,
            [ProviderCall.fxPrimary, ProviderCall.fxFallback])
      | none, none => (none, c, [ProviderCall.fxPrimary, ProviderCall.fxFallback]) := by
  have h0 : _get_cached c now "usdkrw" false = none := by simp [_get_cached, hlk]
  rcases hP : env.fxPrimary with _ | r
  · rcases hF : env.fxFallback with _ | r <;> simp [fetch_usd_krw_rate, h0, hP, hF]
  · simp [fetch_usd_krw_rate, h0, hP]

/-- When the single Finnhub fetch fails, the Finnhub batch stage yields an
empty result dict and only the single fetch's trace. -/
lemma batch_step1_fail (env : Env) (now : ℚ) (cache : Cache) (S : String)
    (hF1 : (_fetch_from_finnhub env S).1 = none) :
    (if env.finnhub_api_key then _fetch_stocks_from_finnhub_batch env now cache [S]
      else ([], cache, [])) = ([], cache, (_fetch_from_finnhub env S).2) := by
  cases hk : env.finnhub_api_key
  · simp [finnhub_skip env S hk]
  · rcases hF : _fetch_from_finnhub env S with ⟨o, t⟩
    rw [hF] at hF1
    subst hF1
    simp [_fetch_stocks_from_finnhub_batch, finnhubBatchAux, hF, hk]

/-- Batch stage outcome when Finnhub answers for the singleton. -/
lemma batch_prices_finnhub_ok (env : Env) (now : ℚ) (S : String) (p : ℚ)
    (hF1 : (_fetch_from_finnhub env S).1 = some p) :
    fetch_stocks_usd_prices_batch env now [] [S] =
      ([(S, (p, "finnhub"))], [("stock:" ++ S, now, p)], [ProviderCall.finnhub S]) := by
  have hfF := finnhub_of_success env S p hF1
  have hk : env.finnhub_api_key = true := by
    cases hk : env.finnhub_api_key
    · rw [finnhub_skip env S hk] at hfF
      exact absurd hfF (by simp)
    · rfl
  simp +decide [fetch_stocks_usd_prices_batch, hk, _fetch_stocks_from_finnhub_batch,
    finnhubBatchAux, hfF, dinsert, dlookup, dedupFirst, _set_cache]

/-- Batch stage outcome when Finnhub fails and the Yahoo batch quote
answers for the singleton. -/
lemma batch_prices_yahoo_ok (env : Env) (now : ℚ) (S : String) (q : ℚ)
    (hF1 : (_fetch_from_finnhub env S).1 = none) (hS : S ≠ "")
    (hresp : env.yahooBatchResp [S] = some [(S, some q)]) :
    fetch_stocks_usd_prices_batch env now [] [S] =
      ([(S, (q, "yahoo"))], [("stock:" ++ S, now, q)],
        (_fetch_from_finnhub env S).2 ++ [ProviderCall.yahooBatch [S]]) := by
  have h1 := batch_step1_fail env now [] S hF1
  simp +decide [fetch_stocks_usd_prices_batch, h1, dlookup, dedupFirst,
    _fetch_stocks_from_yahoo_batch, hresp, yahooQuotesAux, hS, dinsert, dupdate,
    _set_cache]

/-- Batch stage outcome when Finnhub fails and the Yahoo batch quote
carries no price for the singleton. -/
lemma batch_prices_none (env : Env) (now : ℚ) (S : String)
    (hF1 : (_fetch_from_finnhub env S).1 = none)
    (hresp : env.yahooBatchResp [S] = some [(S, none)]) :
    fetch_stocks_usd_prices_batch env now [] [S] =
      ([], [], (_fetch_from_finnhub env S).2 ++ [ProviderCall.yahooBatch [S]]) := by
  have h1 := batch_step1_fail env now [] S hF1
  simp +decide [fetch_stocks_usd_prices_batch, h1, dlookup, dedupFirst,
    _fetch_stocks_from_yahoo_batch, hresp, yahooQuotesAux, dupdate]

/-- Singleton equivalence when the same adapter success feeds both paths
before the FX step. -/
lemma singleton_success (env : Env) (now : ℚ) (S : String) (p : ℚ) (src : String)
    (t1 t2 : List ProviderCall)
    (hsingle : fetch_stock_usd_price env S now [] =
      (some (p, src), [("stock:" ++ S, now, p)], t1))
    (hbatchp : fetch_stocks_usd_prices_batch env now [] [S] =
      ([(S, (p, src))], [("stock:" ++ S, now, p)], t2)) :
    (match (get_price_krw_batch env now [] [(S, "stock")]).1 with
      | some d => dlookup d S
      | none => none) =
    (match (get_price_krw env now [] S "stock").1 with
      | .ok r => some r
      | .error _ => none) := by
  have hlk : cacheLookup ([("stock:" ++ S, now, p)] : Cache) "usdkrw" = none := by
    simp [cacheLookup, stock_key_ne_usdkrw]
  have hfx := fx_cold env now [("stock:" ++ S, now, p)] hlk
  rcases hP : env.fxPrimary with _ | r
  · rcases hFb : env.fxFallback with _ | r
    · rw [hP, hFb] at hfx
      have hs : (get_price_krw env now [] S "stock").1 = .error .bareRaise := by
        simp +decide [get_price_krw, hsingle, hfx, _get_cached, cacheLookup,
          stock_key_ne_usdkrw]
      have hb : (get_price_krw_batch env now [] [(S, "stock")]).1 = none := by
        simp +decide [get_price_krw_batch, hbatchp, hfx, dlookup, dedupFirst]
      simp [hs, hb]
    · rw [hP, hFb] at hfx
      have hs : (get_price_krw env now [] S "stock").1 = .ok ⟨p * r, src, some p⟩ := by
        simp +decide [get_price_krw, hsingle, hfx]
      have hb : (get_price_krw_batch env now [] [(S, "stock")]).1 =
          some [(S, ⟨p * r, src, some p⟩)] := by
        simp +decide [get_price_krw_batch, hbatchp, hfx, dlookup, dedupFirst,
          stooqFallbackAux, otherAssetsAux]
      simp [hs, hb, dlookup]
  · rw [hP] at hfx
    have hs : (get_price_krw env now [] S "stock").1 = .ok ⟨p * r, src, some p⟩ := by
      simp +decide [get_price_krw, hsingle, hfx]
    have hb : (get_price_krw_batch env now [] [(S, "stock")]).1 =
        some [(S, ⟨p * r, src, some p⟩)] := by
      simp +decide [get_price_krw_batch, hbatchp, hfx, dlookup, dedupFirst,
        stooqFallbackAux, otherAssetsAux]
    simp [hs, hb, dlookup]

/-- Singleton equivalence when both batch quote stages miss but Stooq
answers: the single chain reaches Stooq directly, the batch reaches it in
its fallback loop after the FX step. -/
lemma singleton_stooq (env : Env) (now : ℚ) (S : String) (p : ℚ)
    (t1 t2 : List ProviderCall)
    (hsingle : fetch_stock_usd_price env S now [] =
      (some (p, "stooq"), [("stock:" ++ S, now, p)], t1))
    (hbatchp : fetch_stocks_usd_prices_batch env now [] [S] = ([], [], t2))
    (hstooq : (_fetch_from_stooq env S).1 = some p) :
    (match (get_price_krw_batch env now [] [(S, "stock")]).1 with
      | some d => dlookup d S
      | none => none) =
    (match (get_price_krw env now [] S "stock").1 with
      | .ok r => some r
      | .error _ => none) := by
  have hfx0 := fx_cold env now [] rfl
  have hlk1 : cacheLookup ([("stock:" ++ S, now, p)] : Cache) "usdkrw" = none := by
    simp [cacheLookup, stock_key_ne_usdkrw]
  have hfx1 := fx_cold env now [("stock:" ++ S, now, p)] hlk1
  have hstq := stooq_eval env S
  rw [hstooq] at hstq
  rcases hP : env.fxPrimary with _ | r
  · rcases hFb : env.fxFallback with _ | r
    · rw [hP, hFb] at hfx0 hfx1
      have hs : (get_price_krw env now [] S "stock").1 = .error .bareRaise := by
        simp +decide [get_price_krw, hsingle, hfx1, _get_cached, cacheLookup,
          stock_key_ne_usdkrw]
      have hb : (get_price_krw_batch env now [] [(S, "stock")]).1 = none := by
        simp +decide [get_price_krw_batch, hbatchp, hfx0, dlookup, dedupFirst]
      simp [hs, hb]
    · rw [hP, hFb] at hfx0 hfx1
      have hs : (get_price_krw env now [] S "stock").1 =
          .ok ⟨p * r, "stooq", some p⟩ := by
        simp +decide [get_price_krw, hsingle, hfx1]
      have hb : (get_price_krw_batch env now [] [(S, "stock")]).1 =
          some [(S, ⟨p * r, "stooq", some p⟩)] := by
        simp +decide [get_price_krw_batch, hbatchp, hfx0, dlookup, dedupFirst,
          stooqFallbackAux, otherAssetsAux, hstq, dinsert]
      simp [hs, hb, dlookup]
  · rw [hP] at hfx0 hfx1
    have hs : (get_price_krw env now [] S "stock").1 =
        .ok ⟨p * r, "stooq", some p⟩ := by
      simp +decide [get_price_krw, hsingle, hfx1]
    have hb : (get_price_krw_batch env now [] [(S, "stock")]).1 =
        some [(S, ⟨p * r, "stooq", some p⟩)] := by
      simp +decide [get_price_krw_batch, hbatchp, hfx0, dlookup, dedupFirst,
        stooqFallbackAux, otherAssetsAux, hstq, dinsert]
    simp [hs, hb, dlookup]

/-- Singleton equivalence when every adapter fails: the single chain raises
and the batch returns either no map (FX dead) or a map without the symbol. -/
lemma singleton_fail (env : Env) (now : ℚ) (S : String)
    (t1 t2 : List ProviderCall)
    (hsingle : fetch_stock_usd_price env S now [] = (none, [], t1))
    (hbatchp : fetch_stocks_usd_prices_batch env now [] [S] = ([], [], t2))
    (hstooq : (_fetch_from_stooq env S).1 = none) :
    (match (get_price_krw_batch env now [] [(S, "stock")]).1 with
      | some d => dlookup d S
      | none => none) =
    (match (get_price_krw env now [] S "stock").1 with
      | .ok r => some r
      | .error _ => none) := by
  have hfx0 := fx_cold env now [] rfl
  have hstq := stooq_eval env S
  rw [hstooq] at hstq
  have hs : (get_price_krw env now [] S "stock").1 = .error .bareRaise := by
    simp +decide [get_price_krw, hsingle, _get_cached, cacheLookup]
  rcases hP : env.fxPrimary with _ | r
  · rcases hFb : env.fxFallback with _ | r
    · rw [hP, hFb] at hfx0
      have hb : (get_price_krw_batch env now [] [(S, "stock")]).1 = none := by
        simp +decide [get_price_krw_batch, hbatchp, hfx0, dlookup, dedupFirst]
      simp [hs, hb]
    · rw [hP, hFb] at hfx0
      have hb : (get_price_krw_batch env now [] [(S, "stock")]).1 = some [] := by
        simp +decide [get_price_krw_batch, hbatchp, hfx0, dlookup, dedupFirst,
          stooqFallbackAux, otherAssetsAux, hstq]
      simp [hs, hb, dlookup]
  · rw [hP] at hfx0
    have hb : (get_price_krw_batch env now [] [(S, "stock")]).1 = some [] := by
      simp +decide [get_price_krw_batch, hbatchp, hfx0, dlookup, dedupFirst,
        stooqFallbackAux, otherAssetsAux, hstq]
    simp [hs, hb, dlookup]

/-- C9 (amended): a singleton batch and single resolution agree for every
non-foreign asset class with any starting cache (the batch routes such
symbols through `get_price_krw` itself), and for foreign equity whenever
the process cache starts empty and the Yahoo batch endpoint answers
coherently with the single-quote endpoint; the original unconditional
claim fails because a populated stale cache feeds only the single path
(see the counterexample). -/
theorem C9_singleton_equiv (env : Env) (now : ℚ) (S ty : String) :
    (ty ≠ "stock" → ∀ cache : Cache,
      (get_price_krw_batch env now cache [(S, ty)]).1 =
        some (match (get_price_krw env now cache S ty).1 with
          | .ok r => [(S, r)]
          | .error _ => [])) ∧
    (S ≠ "" →
      env.yahooBatchResp [S] = some [(S,
        match env.yahooResp S with
        | some (some q) => some q
        | _ => none)] →
      (match (get_price_krw_batch env now [] [(S, "stock")]).1 with
        | some d => dlookup d S
        | none => none) =
      (match (get_price_krw env now [] S "stock").1 with
        | .ok r => some r
        | .error _ => none)) := by
  constructor
  · intro hty cache
    have h1 : (([(S, ty)] : List (String × String)).filter
        (fun a => a.2 = "stock")) = [] := by simp [hty]
    have h2 : (([(S, ty)] : List (String × String)).filter
        (fun a => a.2 ≠ "stock")) = [(S, ty)] := by simp [hty]
    simp only [get_price_krw_batch, h1, h2, List.map_nil]
    rcases hr : get_price_krw env now cache S ty with ⟨res, c2, t2⟩
    cases res with
    | ok r => simp [otherAssetsAux, hr, dinsert]
    | error e => simp [otherAssetsAux, hr]
  · intro hS hcoh
    rcases hF1 : (_fetch_from_finnhub env S).1 with _ | p
    · rcases hY : env.yahooResp S with _ | yb
      · have hY1 : (_fetch_from_yahoo env S).1 = none := by
          simp [_fetch_from_yahoo, hY]
        rw [hY] at hcoh
        have hbatchp := batch_prices_none env now S hF1 hcoh
        rcases hSt : (_fetch_from_stooq env S).1 with _ | p3
        · exact singleton_fail env now S _ _
            (fetch_stock_fail env S now [] hF1 hY1 hSt) hbatchp hSt
        · exact singleton_stooq env now S p3 _ _
            (fetch_stock_stooq_ok env S now [] p3 hF1 hY1 hSt) hbatchp hSt
      · cases yb with
        | none =>
          have hY1 : (_fetch_from_yahoo env S).1 = none := by
            simp [_fetch_from_yahoo, hY]
          rw [hY] at hcoh
          have hbatchp := batch_prices_none env now S hF1 hcoh
          rcases hSt : (_fetch_from_stooq env S).1 with _ | p3
          · exact singleton_fail env now S _ _
              (fetch_stock_fail env S now [] hF1 hY1 hSt) hbatchp hSt
          · exact singleton_stooq env now S p3 _ _
              (fetch_stock_stooq_ok env S now [] p3 hF1 hY1 hSt) hbatchp hSt
        | some q =>
          have hY1 : (_fetch_from_yahoo env S).1 = some q := by
            simp [_fetch_from_yahoo, hY]
          rw [hY] at hcoh
          have hbatchp := batch_prices_yahoo_ok env now S q hF1 hS hcoh
          exact singleton_success env now S q "yahoo" _ _
            (fetch_stock_yahoo_ok env S now [] q hF1 hY1) hbatchp
    · have hbatchp := batch_prices_finnhub_ok env now S p hF1
      exact singleton_success env now S p "finnhub" _ _
        (fetch_stock_finnhub_ok env S now [] p hF1) hbatchp

/-- C9 witness: a singleton crypto batch agrees with single resolution,
and a coherent foreign-equity singleton agrees as well. -/
theorem C9_singleton_equiv_witness :
    ((get_price_krw_batch envFxUp 0 [] [("BTC", "crypto")]).1 =
      some (match (get_price_krw envFxUp 0 [] "BTC" "crypto").1 with
        | .ok r => [("BTC", r)]
        | .error _ => [])) ∧
    ((match (get_price_krw_batch envCoherent 0 [] [("AAPL", "stock")]).1 with
      | some d => dlookup d "AAPL"
      | none => none) =
     (match (get_price_krw envCoherent 0 [] "AAPL" "stock").1 with
      | .ok r => some r
      | .error _ => none)) :=
  ⟨(C9_singleton_equiv envFxUp 0 "BTC" "crypto").1 (by decide) [],
    (C9_singleton_equiv envCoherent 0 "AAPL" "stock").2 (by decide) rfl⟩

/-- C9 counterexample: with every provider failing and a stale cached price
plus FX rate present, single resolution returns the cache-tagged result
while the singleton batch does not return a result map at all. -/
theorem C9_counterexample :
    (get_price_krw envAllDown 5 cacheStale "AAPL" "stock").1 =
      .ok ⟨130000, "cache", some 100⟩ ∧
    (get_price_krw_batch envAllDown 5 cacheStale [("AAPL", "stock")]).1 = none := by
  constructor
  · norm_num +decide [get_price_krw, fetch_stock_usd_price, _fetch_from_finnhub,
      _fetch_from_yahoo, _fetch_from_stooq, _get_cached, cacheLookup,
      _get_cache_ttl, ttlScan, strHasPrefix, _set_cache, envAllDown, envFxDown,
      cacheStale, _CACHE_TTL_MAP, _DEFAULT_CACHE_TTL, List.isPrefixOf]
  · norm_num +decide [get_price_krw_batch, fetch_stocks_usd_prices_batch,
      _fetch_stocks_from_finnhub_batch, finnhubBatchAux, _fetch_from_finnhub,
      _fetch_stocks_from_yahoo_batch, _fetch_from_stooq, stooqParse,
      fetch_usd_krw_rate, _get_cached, cacheLookup, _get_cache_ttl, ttlScan,
      strHasPrefix, _set_cache, dinsert, dlookup, dedupFirst, dupdate,
      stooqFallbackAux, otherAssetsAux, envAllDown, envFxDown, cacheStale,
      _CACHE_TTL_MAP, _DEFAULT_CACHE_TTL, List.isPrefixOf]

end Pricing
